import Mathlib

/-!
Shallow embedding of `sklearn_pandas/categorical_imputer.py`.

The input is a one-dimensional sequence of scalars, each either an
ordinary string or the canonical missing value (Python `None` / float
NaN, which `pd.isnull` treats identically).  `pd.Series.mode` is
embedded as the sorted list of distinct values of maximal frequency,
and `random.choice` is embedded with an explicit draw index.
-/

deriving instance DecidableEq for Except

/-- A scalar entry of the input sequence: a string, or a null/NaN entry
(Python `None` and float `nan`, which `pd.isnull` both flags). -/
inductive Val where
  | str (s : String)
  | null
deriving DecidableEq, Repr

/-- The `strategy` configuration string. -/
inductive Strategy where
  | mostFrequent
  | constant
deriving DecidableEq, Repr

/-- The `tie_breaking` configuration string. -/
inductive TieBreaking where
  | error
  | first
  | random
deriving DecidableEq, Repr

/-- Errors `fit` can raise: the two explicit `ValueError`s of the source
(`Data is empty or all values are null`, `No value is repeated more than
once in the column`), plus the `IndexError` that `random.choice` raises
on an empty sequence. -/
inductive FitError where
  | emptyData
  | tie
  | indexError
deriving DecidableEq, Repr

/-- Error raised by `transform` when the object has no `fill_` attribute
(`check_is_fitted(self, 'fill_')`). -/
inductive TransformError where
  | notFitted
deriving DecidableEq, Repr

/-- Elementwise form of `_get_mask`: is entry `x` missing under sentinel
`value`?  Mirrors `value == "NaN" or value is None or
(isinstance(value, float) and np.isnan(value))` selecting the
`pd.isnull` test, and scalar equality (`X == value`) otherwise. -/
def isMissingElem (value : Val) (x : Val) : Bool :=
  if value == Val.str "NaN" || value == Val.null then x == Val.null
  else x == value

/-- `_get_mask(X, value)`: the boolean mask `X == missing_values`. -/
def _get_mask (X : List Val) (value : Val) : List Bool :=
  X.map (isMissingElem value)

/-- The string payloads of a list of entries, dropping null/NaN entries:
`pd.Series(...).mode()` computes over the non-na values
(`dropna=True` being the pandas default). -/
def strVals (l : List Val) : List String :=
  l.filterMap (fun x => match x with | .str s => some s | .null => none)

/-- Byte-wise lexicographic comparison of character lists, the order in
which pandas returns the mode values of a string column. -/
def charListLe : List Char → List Char → Bool
  | [], _ => true
  | _ :: _, [] => false
  | a :: as, b :: bs =>
    if a.toNat < b.toNat then true
    else if b.toNat < a.toNat then false
    else charListLe as bs

/-- Lexicographic order on strings. -/
def strLe (a b : String) : Bool := charListLe a.toList b.toList

/-- `strLe` as a binary relation. -/
def strLeP (a b : String) : Prop := strLe a b = true

instance : DecidableRel strLeP :=
  fun a b => inferInstanceAs (Decidable (strLe a b = true))

/-- The maximal number of occurrences of any element of `l` in `l`
(0 when `l` is empty). -/
def maxCount (l : List String) : Nat :=
  (l.map (fun v => l.count v)).foldr max 0

/-- `pd.Series(l).mode()`: the distinct values of maximal frequency, in
ascending order; empty exactly when `l` is empty. -/
def mode (l : List String) : List String :=
  (List.insertionSort strLeP l.dedup).filter
    (fun v => l.count v == maxCount l)

/-- `random.choice(s)` on a string `s`: a uniformly random character of
`s`, modelled by the draw index `r` (reduced modulo the length); raises
`IndexError` on an empty string.  The result is a one-character string,
since indexing a Python `str` yields a `str` of length 1. -/
def randomChoice (s : String) (r : Nat) : Except FitError String :=
  match s.toList with
  | [] => .error .indexError
  | c :: cs => .ok (String.mk [(c :: cs).getD (r % (c :: cs).length) c])

/-- The `CategoricalImputer` object: its construction-time configuration
together with the learned state `fill_` (absent before a successful
fit).  Invalid `strategy` / `tie_breaking` strings are unrepresentable
here; the source constructor validates them eagerly. -/
structure CategoricalImputer where
  missing_values : Val := .str "NaN"
  strategy : Strategy := .mostFrequent
  fill_value : String := "?"
  tie_breaking : TieBreaking := .error
  copy : Bool := true
  fill_ : Option String := none
deriving DecidableEq, Repr

namespace CategoricalImputer

/-- `fit(X)`: compute the mask, drop the masked entries
(`X = X[~mask]`), compute the mode list (or the singleton `fill_value`
under `strategy="constant"`), then resolve a single fill value along the
source's `if/elif` chain.  An `Except.error` models a raised exception;
every raise occurs before the assignment `self.fill_ = ...`, so an error
leaves the object unmodified.  `r` is the draw consumed by
`random.choice` on the `"random"` path. -/
def fit (imp : CategoricalImputer) (X : List Val) (r : Nat) :
    Except FitError CategoricalImputer :=
  let Xobs := X.filter (fun x => !(isMissingElem imp.missing_values x))
  let modes : List String :=
    match imp.strategy with
    | .mostFrequent => mode (strVals Xobs)
    | .constant => [imp.fill_value]
  match modes with
  | [] => .error .emptyData
  | m :: rest =>
    if rest.length > 0 && imp.tie_breaking == .error then .error .tie
    else if imp.tie_breaking == .random then
      match randomChoice m r with
      | .ok f => .ok { imp with fill_ := some f }
      | .error e => .error e
    else .ok { imp with fill_ := some m }

/-- `fit` as a state transition on the object: the pair (object after
the call, outcome).  When `fit` raises, the exception propagates before
any mutation of `self`, so the object is returned unchanged. -/
def fitRun (imp : CategoricalImputer) (X : List Val) (r : Nat) :
    CategoricalImputer × Except FitError Unit :=
  match fit imp X r with
  | .ok imp2 => (imp2, .ok ())
  | .error e => (imp, .error e)

/-- The imputed sequence: `X[mask] = fill` pointwise. -/
def imputeWith (imp : CategoricalImputer) (f : String) (X : List Val) :
    List Val :=
  X.map (fun x => if isMissingElem imp.missing_values x then Val.str f else x)

/-- `transform(X)`: fails with the not-fitted condition when `fill_` is
absent, otherwise substitutes `fill_` at every masked position. -/
def transform (imp : CategoricalImputer) (X : List Val) :
    Except TransformError (List Val) :=
  match imp.fill_ with
  | none => .error .notFitted
  | some f => .ok (imputeWith imp f X)

/-- `transform` with the aliasing made explicit: on success the first
component is the contents of the caller's buffer after the call (the
original contents when `copy` is set, since the mutation
`X[mask] = self.fill_` then hits a fresh duplicate; the imputed contents
otherwise), and the second component is the returned array. -/
def transformRun (imp : CategoricalImputer) (X : List Val) :
    Except TransformError (List Val × List Val) :=
  match imp.fill_ with
  | none => .error .notFitted
  | some f =>
    let out := imputeWith imp f X
    .ok (if imp.copy then X else out, out)

end CategoricalImputer

/-- `v` is a most-frequent value of `l`: it occurs in `l` and no value
occurs more often. -/
def IsModeOf (v : String) (l : List String) : Prop :=
  v ∈ l ∧ ∀ u ∈ l, l.count u ≤ l.count v

instance (v : String) (l : List String) : Decidable (IsModeOf v l) := by
  unfold IsModeOf; infer_instance

/-- `l` has a unique most-frequent value, namely `m`. -/
def UniqueMode (m : String) (l : List String) : Prop :=
  IsModeOf m l ∧ ∀ v ∈ l, IsModeOf v l → v = m

instance (m : String) (l : List String) : Decidable (UniqueMode m l) := by
  unfold UniqueMode; infer_instance

/-- `l` has at least two distinct tied most-frequent values. -/
def ModeTie (l : List String) : Prop :=
  ∃ v ∈ l, ∃ w ∈ l, v ≠ w ∧ IsModeOf v l ∧ IsModeOf w l

instance (l : List String) : Decidable (ModeTie l) := by
  unfold ModeTie; infer_instance

section OrderLemmas

theorem charListLe_refl (l : List Char) : charListLe l l = true := by
  induction l with
  | nil => rfl
  | cons a as ih => simp [charListLe, ih]

theorem charListLe_total (a b : List Char) :
    charListLe a b = true ∨ charListLe b a = true := by
  induction a generalizing b with
  | nil => exact Or.inl rfl
  | cons x xs ih =>
    cases b with
    | nil => exact Or.inr rfl
    | cons y ys =>
      by_cases hxy : x.toNat < y.toNat
      · exact Or.inl (by simp [charListLe, hxy])
      · by_cases hyx : y.toNat < x.toNat
        · exact Or.inr (by simp [charListLe, hyx])
        · rcases ih ys with h | h
          · exact Or.inl (by simp [charListLe, hxy, hyx, h])
          · exact Or.inr (by simp [charListLe, hxy, hyx, h])

theorem charListLe_trans {a b c : List Char} (hab : charListLe a b = true)
    (hbc : charListLe b c = true) : charListLe a c = true := by
  induction a generalizing b c with
  | nil => rfl
  | cons x xs ih =>
    cases b with
    | nil => simp [charListLe] at hab
    | cons y ys =>
      cases c with
      | nil => simp [charListLe] at hbc
      | cons z zs =>
        simp only [charListLe] at hab hbc ⊢
        rcases Nat.lt_trichotomy x.toNat y.toNat with hxy | hxy | hxy
        · rcases Nat.lt_trichotomy y.toNat z.toNat with hyz | hyz | hyz
          · have hxz : x.toNat < z.toNat := by omega
            simp [hxz]
          · have hxz : x.toNat < z.toNat := by omega
            simp [hxz]
          · rw [if_neg (by omega), if_pos hyz] at hbc
            exact absurd hbc (by simp)
        · rcases Nat.lt_trichotomy y.toNat z.toNat with hyz | hyz | hyz
          · have hxz : x.toNat < z.toNat := by omega
            simp [hxz]
          · rw [if_neg (by omega), if_neg (by omega)] at hab
            rw [if_neg (by omega), if_neg (by omega)] at hbc
            rw [if_neg (by omega), if_neg (by omega)]
            exact ih hab hbc
          · rw [if_neg (by omega), if_pos hyz] at hbc
            exact absurd hbc (by simp)
        · rw [if_neg (by omega), if_pos hxy] at hab
          exact absurd hab (by simp)

instance : IsTotal String strLeP :=
  ⟨fun a b => charListLe_total a.toList b.toList⟩

instance : IsTrans String strLeP :=
  ⟨fun _ _ _ hab hbc => charListLe_trans hab hbc⟩

theorem strLe_refl (s : String) : strLe s s = true :=
  charListLe_refl s.toList

end OrderLemmas

section ModeLemmas

theorem le_foldr_max {L : List Nat} {x : Nat} (hx : x ∈ L) : x ≤ L.foldr max 0 := by
  induction L with
  | nil => cases hx
  | cons a L ih =>
    rcases List.mem_cons.mp hx with rfl | h
    · exact le_max_left _ _
    · exact (ih h).trans (le_max_right _ _)

theorem foldr_max_mem {L : List Nat} (h : L ≠ []) : L.foldr max 0 ∈ L := by
  induction L with
  | nil => exact absurd rfl h
  | cons a L ih =>
    cases L with
    | nil =>
      show max a 0 ∈ [a]
      simp
    | cons b L2 =>
      have hL : (b :: L2) ≠ [] := by simp
      show max a ((b :: L2).foldr max 0) ∈ a :: b :: L2
      rcases Nat.le_total a ((b :: L2).foldr max 0) with hle | hle
      · rw [Nat.max_eq_right hle]
        exact List.mem_cons_of_mem _ (ih hL)
      · rw [Nat.max_eq_left hle]
        exact List.mem_cons_self _ _

theorem count_le_maxCount {l : List String} {v : String} (h : v ∈ l) :
    l.count v ≤ maxCount l :=
  le_foldr_max (List.mem_map_of_mem _ h)

theorem exists_count_eq_maxCount {l : List String} (h : l ≠ []) :
    ∃ v ∈ l, l.count v = maxCount l := by
  have hmem : maxCount l ∈ l.map (fun v => l.count v) :=
    foldr_max_mem (by simpa using h)
  rcases List.mem_map.mp hmem with ⟨v, hv, hc⟩
  exact ⟨v, hv, hc⟩

theorem mem_mode_iff {l : List String} {v : String} :
    v ∈ mode l ↔ v ∈ l ∧ l.count v = maxCount l := by
  unfold mode
  rw [List.mem_filter, (List.perm_insertionSort strLeP l.dedup).mem_iff,
    List.mem_dedup]
  simp

theorem isModeOf_iff {v : String} {l : List String} :
    IsModeOf v l ↔ v ∈ l ∧ l.count v = maxCount l := by
  constructor
  · rintro ⟨hv, hmax⟩
    refine ⟨hv, le_antisymm (count_le_maxCount hv) ?_⟩
    rcases exists_count_eq_maxCount (List.ne_nil_of_mem hv) with ⟨u, hu, hc⟩
    exact hc ▸ hmax u hu
  · rintro ⟨hv, heq⟩
    exact ⟨hv, fun u hu => heq ▸ count_le_maxCount hu⟩

theorem mem_mode_iff_isModeOf {v : String} {l : List String} :
    v ∈ mode l ↔ IsModeOf v l :=
  mem_mode_iff.trans isModeOf_iff.symm

theorem mode_nodup (l : List String) : (mode l).Nodup :=
  ((List.perm_insertionSort strLeP l.dedup).nodup_iff.mpr l.nodup_dedup).filter _

theorem mode_pairwise (l : List String) : (mode l).Pairwise strLeP :=
  List.Pairwise.filter _ (List.sorted_insertionSort strLeP l.dedup)

theorem uniqueMode_mode_eq {m : String} {l : List String} (h : UniqueMode m l) :
    mode l = [m] := by
  have hm : m ∈ mode l := mem_mode_iff_isModeOf.mpr h.1
  have hall : ∀ v ∈ mode l, v = m := fun v hv =>
    h.2 v (mem_mode_iff.mp hv).1 (mem_mode_iff_isModeOf.mp hv)
  have hnd := mode_nodup l
  cases hmode : mode l with
  | nil => rw [hmode] at hm; cases hm
  | cons x t =>
    rw [hmode] at hm hall hnd
    have hx : x = m := hall x (List.mem_cons_self _ _)
    cases t with
    | nil => rw [hx]
    | cons y t2 =>
      have hy : y = m := hall y (by simp)
      rw [List.nodup_cons] at hnd
      exact absurd (by simp [hx, hy] : x ∈ y :: t2) hnd.1

theorem modeTie_cons {l : List String} (h : ModeTie l) :
    ∃ m t, mode l = m :: t ∧ t ≠ [] := by
  rcases h with ⟨v, hv, w, hw, hne, hmv, hmw⟩
  have hv2 : v ∈ mode l := mem_mode_iff_isModeOf.mpr hmv
  have hw2 : w ∈ mode l := mem_mode_iff_isModeOf.mpr hmw
  cases hmode : mode l with
  | nil => rw [hmode] at hv2; cases hv2
  | cons m t =>
    refine ⟨m, t, rfl, ?_⟩
    rintro rfl
    rw [hmode] at hv2 hw2
    simp at hv2 hw2
    exact hne (hv2.trans hw2.symm)

end ModeLemmas

section FitLemmas

theorem fit_mostFrequent_eq {imp : CategoricalImputer} {X : List Val} {r : Nat}
    (hs : imp.strategy = .mostFrequent) :
    imp.fit X r =
      match mode (strVals (X.filter (fun x => !(isMissingElem imp.missing_values x)))) with
      | [] => .error .emptyData
      | m :: rest =>
        if rest.length > 0 && imp.tie_breaking == .error then .error .tie
        else if imp.tie_breaking == .random then
          match randomChoice m r with
          | .ok f => .ok { imp with fill_ := some f }
          | .error e => .error e
        else .ok { imp with fill_ := some m } := by
  simp only [CategoricalImputer.fit]
  rw [hs]

theorem fit_constant_eq {imp : CategoricalImputer} {X : List Val} {r : Nat}
    (hs : imp.strategy = .constant) :
    imp.fit X r =
      if imp.tie_breaking == .random then
        match randomChoice imp.fill_value r with
        | .ok f => .ok { imp with fill_ := some f }
        | .error e => .error e
      else .ok { imp with fill_ := some imp.fill_value } := by
  simp only [CategoricalImputer.fit]
  rw [hs]
  rfl

theorem fit_ok_shape {imp : CategoricalImputer} {X : List Val} {r : Nat}
    {imp2 : CategoricalImputer} (h : imp.fit X r = .ok imp2) :
    ∃ f, imp2 = { imp with fill_ := some f } := by
  have key : ∀ (m : String) (rest : List String),
      (if rest.length > 0 && imp.tie_breaking == TieBreaking.error then
        (Except.error FitError.tie : Except FitError CategoricalImputer)
      else if imp.tie_breaking == TieBreaking.random then
        match randomChoice m r with
        | Except.ok f => Except.ok { imp with fill_ := some f }
        | Except.error e => Except.error e
      else Except.ok { imp with fill_ := some m }) = Except.ok imp2 →
      ∃ f, imp2 = { imp with fill_ := some f } := by
    intro m rest hm
    split at hm
    · exact absurd hm (by simp)
    · split at hm
      · split at hm
        · next f hrc =>
            injection hm with hm
            exact ⟨f, hm.symm⟩
        · exact absurd hm (by simp)
      · injection hm with hm
        exact ⟨m, hm.symm⟩
  have hstrat : imp.strategy = Strategy.mostFrequent ∨ imp.strategy = Strategy.constant := by
    cases imp.strategy <;> simp
  rcases hstrat with hstrat | hstrat
  · have h2 := (fit_mostFrequent_eq hstrat) ▸ h
    cases hmode : mode (strVals (X.filter
        (fun x => !(isMissingElem imp.missing_values x)))) with
    | nil => rw [hmode] at h2; simp at h2
    | cons m rest => rw [hmode] at h2; exact key m rest h2
  · exact key imp.fill_value [] ((fit_constant_eq hstrat) ▸ h)

end FitLemmas

section Claims

/-- C7: for every training sequence consisting entirely of the missing
marker (the empty sequence included), `fit` with
`strategy = "most_frequent"` fails with the empty-training-signal
condition (`Data is empty or all values are null`). -/
theorem c7_allMissing_fit_emptyData (imp : CategoricalImputer) (X : List Val)
    (r : Nat) (hs : imp.strategy = .mostFrequent)
    (hmiss : ∀ x ∈ X, isMissingElem imp.missing_values x = true) :
    imp.fit X r = .error .emptyData := by
  have hfil : X.filter (fun x => !(isMissingElem imp.missing_values x)) = [] := by
    rw [List.filter_eq_nil_iff]
    intro a ha
    simp [hmiss a ha]
  rw [fit_mostFrequent_eq hs, hfil]
  rfl

/-- Witness for C7 at a concrete all-missing input. -/
theorem c7_allMissing_fit_emptyData_witness :
    CategoricalImputer.fit {} [Val.null, Val.null] 0 = .error .emptyData :=
  c7_allMissing_fit_emptyData {} [Val.null, Val.null] 0 rfl (by decide)

/-- C8: whenever the non-missing training values have two or more tied
most-frequent values and `tie_breaking = "error"`, `fit` fails with the
unresolved-tie condition; in particular on
`["a","b","b","NaN","a"]` with `missing_values="NaN"` the counts of
`"a"` and `"b"` are both 2 and `fit` fails this way. -/
theorem c8_tie_error_fit :
    (∀ (imp : CategoricalImputer) (X : List Val) (r : Nat),
        imp.strategy = .mostFrequent → imp.tie_breaking = .error →
        ModeTie (strVals (X.filter (fun x => !(isMissingElem imp.missing_values x)))) →
        imp.fit X r = .error .tie) ∧
    (strVals ([Val.str "a", Val.str "b", Val.str "b", Val.str "NaN",
        Val.str "a"].filter (fun x => !(isMissingElem (Val.str "NaN") x)))).count "a" = 2 ∧
    (strVals ([Val.str "a", Val.str "b", Val.str "b", Val.str "NaN",
        Val.str "a"].filter (fun x => !(isMissingElem (Val.str "NaN") x)))).count "b" = 2 ∧
    CategoricalImputer.fit {}
      [Val.str "a", Val.str "b", Val.str "b", Val.str "NaN", Val.str "a"] 0 =
      .error .tie := by
  refine ⟨?_, by decide, by decide, by decide⟩
  intro imp X r hs ht htie
  rcases modeTie_cons htie with ⟨m, t, hmode, htne⟩
  rw [fit_mostFrequent_eq hs, hmode]
  have hl : 0 < t.length := List.length_pos.mpr htne
  have hcond : (t.length > 0 && imp.tie_breaking == TieBreaking.error) = true := by
    simp [ht, hl]
  simp [hcond]

/-- Witness for C8 at the concrete tied scenario. -/
theorem c8_tie_error_fit_witness :
    CategoricalImputer.fit { tie_breaking := .error }
      [Val.str "x", Val.str "y", Val.null, Val.str "x", Val.str "y"] 0 =
      .error .tie :=
  c8_tie_error_fit.1 { tie_breaking := .error }
    [Val.str "x", Val.str "y", Val.null, Val.str "x", Val.str "y"] 0
    rfl rfl (by decide)

/-- C10: on a training sequence with a frequency tie,
`tie_breaking = "first"` makes `fit` succeed with the first value of the
sorted mode list — a tied most-frequent value that is lexicographically
minimal among the mode values — and the result does not depend on the
random draw, so repeated fits on identical data agree. -/
theorem c10_first_tie_deterministic (imp : CategoricalImputer) (X : List Val)
    (r r2 : Nat) (hs : imp.strategy = .mostFrequent)
    (ht : imp.tie_breaking = .first)
    (htie : ModeTie (strVals (X.filter (fun x => !(isMissingElem imp.missing_values x))))) :
    ∃ m t,
      mode (strVals (X.filter (fun x => !(isMissingElem imp.missing_values x)))) =
        m :: t ∧
      imp.fit X r = .ok { imp with fill_ := some m } ∧
      IsModeOf m (strVals (X.filter (fun x => !(isMissingElem imp.missing_values x)))) ∧
      (∀ v ∈ mode (strVals (X.filter (fun x => !(isMissingElem imp.missing_values x)))),
        strLe m v = true) ∧
      imp.fit X r2 = imp.fit X r := by
  rcases modeTie_cons htie with ⟨m, t, hmode, htne⟩
  have hfit : ∀ s : Nat, imp.fit X s = .ok { imp with fill_ := some m } := by
    intro s
    rw [fit_mostFrequent_eq hs, hmode]
    have hcond : (t.length > 0 && imp.tie_breaking == TieBreaking.error) = false := by
      simp [ht]
    have hcond2 : (imp.tie_breaking == TieBreaking.random) = false := by
      simp [ht]
    simp [hcond, hcond2]
  refine ⟨m, t, hmode, hfit r, ?_, ?_, (hfit r2).trans (hfit r).symm⟩
  · exact mem_mode_iff_isModeOf.mp (hmode.symm ▸ List.mem_cons_self m t)
  · intro v hv
    rw [hmode] at hv
    have hp := mode_pairwise
      (strVals (X.filter (fun x => !(isMissingElem imp.missing_values x))))
    rw [hmode] at hp
    rcases List.mem_cons.mp hv with rfl | hv2
    · exact strLe_refl v
    · exact List.rel_of_pairwise_cons hp hv2

/-- Witness for C10 at a concrete tied input with two fits. -/
theorem c10_first_tie_deterministic_witness :
    ∃ m t,
      mode (strVals ([Val.str "a", Val.str "b", Val.str "b",
          Val.str "a"].filter (fun x => !(isMissingElem (Val.str "NaN") x)))) =
        m :: t ∧
      CategoricalImputer.fit { tie_breaking := .first }
          [Val.str "a", Val.str "b", Val.str "b", Val.str "a"] 0 =
        .ok { tie_breaking := .first, fill_ := some m } ∧
      IsModeOf m (strVals ([Val.str "a", Val.str "b", Val.str "b",
          Val.str "a"].filter (fun x => !(isMissingElem (Val.str "NaN") x)))) ∧
      (∀ v ∈ mode (strVals ([Val.str "a", Val.str "b", Val.str "b",
          Val.str "a"].filter (fun x => !(isMissingElem (Val.str "NaN") x)))),
        strLe m v = true) ∧
      CategoricalImputer.fit { tie_breaking := .first }
          [Val.str "a", Val.str "b", Val.str "b", Val.str "a"] 1 =
        CategoricalImputer.fit { tie_breaking := .first }
          [Val.str "a", Val.str "b", Val.str "b", Val.str "a"] 0 :=
  c10_first_tie_deterministic { tie_breaking := .first }
    [Val.str "a", Val.str "b", Val.str "b", Val.str "a"] 0 1 rfl rfl (by decide)

/-- C5: for every sequence `S` whose observed (non-missing) values have a
unique most-frequent value `m`, and any non-random tie policy, `fit(S)`
succeeds and stores `m`, and `transform(S)` on the fitted object returns
a sequence of the same length equal to `S` except that every entry
matched by the missing-value mask is replaced with the learned `fill_`
and every other entry is unchanged, position by position. -/
theorem c5_fit_transform_roundtrip (imp : CategoricalImputer) (X : List Val)
    (r : Nat) (m : String) (hs : imp.strategy = .mostFrequent)
    (ht : imp.tie_breaking ≠ .random)
    (hm : UniqueMode m (strVals (X.filter (fun x => !(isMissingElem imp.missing_values x))))) :
    imp.fit X r = .ok { imp with fill_ := some m } ∧
    CategoricalImputer.transform { imp with fill_ := some m } X =
      .ok (imp.imputeWith m X) ∧
    (imp.imputeWith m X).length = X.length ∧
    ∀ i, i < X.length →
      (imp.imputeWith m X).getD i Val.null =
        if isMissingElem imp.missing_values (X.getD i Val.null) then Val.str m
        else X.getD i Val.null := by
  refine ⟨?_, rfl, by simp [CategoricalImputer.imputeWith], ?_⟩
  · rw [fit_mostFrequent_eq hs, uniqueMode_mode_eq hm]
    have hcond2 : (imp.tie_breaking == TieBreaking.random) = false := by
      cases htb : imp.tie_breaking <;> simp_all
    simp [hcond2]
  · intro i hi
    simp only [CategoricalImputer.imputeWith, List.getD_eq_getElem?_getD,
      List.getElem?_map]
    rw [List.getElem?_eq_getElem hi]
    simp

/-- Witness for C5 at a concrete input with one missing entry and unique
mode `"b"`. -/
theorem c5_fit_transform_roundtrip_witness :
    CategoricalImputer.fit {} [Val.str "a", Val.null, Val.str "b", Val.str "b"] 0 =
      .ok { fill_ := some "b" } ∧
    CategoricalImputer.transform { fill_ := some "b" }
        [Val.str "a", Val.null, Val.str "b", Val.str "b"] =
      .ok (CategoricalImputer.imputeWith {} "b"
        [Val.str "a", Val.null, Val.str "b", Val.str "b"]) ∧
    (CategoricalImputer.imputeWith {} "b"
      [Val.str "a", Val.null, Val.str "b", Val.str "b"]).length =
      ([Val.str "a", Val.null, Val.str "b", Val.str "b"] : List Val).length ∧
    ∀ i, i < ([Val.str "a", Val.null, Val.str "b", Val.str "b"] : List Val).length →
      (CategoricalImputer.imputeWith {} "b"
          [Val.str "a", Val.null, Val.str "b", Val.str "b"]).getD i Val.null =
        if isMissingElem (Val.str "NaN")
            (([Val.str "a", Val.null, Val.str "b", Val.str "b"] : List Val).getD i Val.null)
          then Val.str "b"
        else ([Val.str "a", Val.null, Val.str "b", Val.str "b"] : List Val).getD i Val.null :=
  c5_fit_transform_roundtrip {} [Val.str "a", Val.null, Val.str "b", Val.str "b"]
    0 "b" rfl (by decide) (by decide)

/-- C6: the learned state exists exactly when a fit has completed
successfully: `transform` on an object with no `fill_` fails with the
not-fitted condition, a failed `fit` leaves the object (hence any
previously learned `fill_`, or its absence) unchanged, and a successful
`fit` leaves a `fill_` present. -/
theorem c6_state_invariant (imp : CategoricalImputer) (X : List Val) (r : Nat) :
    (imp.fill_ = none → imp.transform X = .error .notFitted) ∧
    (∀ e, (imp.fitRun X r).2 = .error e → (imp.fitRun X r).1 = imp) ∧
    ((imp.fitRun X r).2 = .ok () → ∃ f, ((imp.fitRun X r).1).fill_ = some f) := by
  refine ⟨?_, ?_, ?_⟩
  · intro h
    unfold CategoricalImputer.transform
    rw [h]
  · intro e he
    unfold CategoricalImputer.fitRun at he ⊢
    cases hf : imp.fit X r with
    | ok imp2 => rw [hf] at he; simp at he
    | error e2 => rfl
  · intro hok
    unfold CategoricalImputer.fitRun at hok ⊢
    cases hf : imp.fit X r with
    | ok imp2 =>
      rcases fit_ok_shape hf with ⟨f, rfl⟩
      exact ⟨f, rfl⟩
    | error e2 => rw [hf] at hok; simp at hok

/-- Witness for C6: transform before any fit fails as not fitted. -/
theorem c6_state_invariant_witness :
    CategoricalImputer.transform {} [Val.str "a"] = .error .notFitted :=
  (c6_state_invariant {} [Val.str "a"] 0).1 rfl

/-- C9: for a fitted imputer, `transform` with `copy = true` leaves the
caller's buffer holding the original contents and returns the imputed
sequence, while with `copy = false` the caller's buffer is mutated to
the very sequence that is returned. -/
theorem c9_copy_semantics (imp : CategoricalImputer) (X : List Val) (f : String)
    (hf : imp.fill_ = some f) :
    (imp.copy = true → imp.transformRun X = .ok (X, imp.imputeWith f X)) ∧
    (imp.copy = false →
      imp.transformRun X = .ok (imp.imputeWith f X, imp.imputeWith f X)) := by
  constructor <;> intro hc <;> unfold CategoricalImputer.transformRun <;>
    rw [hf] <;> simp [hc]

/-- Witness for C9: a copying and a mutating transform on `[null, "x"]`. -/
theorem c9_copy_semantics_witness :
    CategoricalImputer.transformRun { fill_ := some "b" } [Val.null, Val.str "x"] =
      .ok ([Val.null, Val.str "x"], [Val.str "b", Val.str "x"]) ∧
    CategoricalImputer.transformRun { copy := false, fill_ := some "b" }
        [Val.null, Val.str "x"] =
      .ok ([Val.str "b", Val.str "x"], [Val.str "b", Val.str "x"]) :=
  ⟨(c9_copy_semantics { fill_ := some "b" } [Val.null, Val.str "x"] "b" rfl).1 rfl,
   (c9_copy_semantics { copy := false, fill_ := some "b" }
      [Val.null, Val.str "x"] "b" rfl).2 rfl⟩

/-- C1: the claim that `tie_breaking = "random"` picks uniformly among
the tied mode values fails on the code: `random.choice(modes[0])` draws
a character of the FIRST mode string, not an element of the tied set.
On the tie `{"ab", "cd"}` the two possible outcomes are `"a"` and
`"b"`, neither of which is a member of the tied set. -/
theorem c1_random_choice_bug :
    mode (strVals ([Val.str "ab", Val.str "ab", Val.str "cd",
        Val.str "cd"].filter (fun x => !(isMissingElem (Val.str "NaN") x)))) =
      ["ab", "cd"] ∧
    CategoricalImputer.fit { tie_breaking := .random }
        [Val.str "ab", Val.str "ab", Val.str "cd", Val.str "cd"] 0 =
      .ok { tie_breaking := .random, fill_ := some "a" } ∧
    CategoricalImputer.fit { tie_breaking := .random }
        [Val.str "ab", Val.str "ab", Val.str "cd", Val.str "cd"] 1 =
      .ok { tie_breaking := .random, fill_ := some "b" } ∧
    ("a" : String) ∉ (["ab", "cd"] : List String) ∧
    ("b" : String) ∉ (["ab", "cd"] : List String) :=
  ⟨by decide, by decide, by decide, by decide, by decide⟩

/-- C2: the claim that a unique mode is stored whatever the
`tie_breaking` setting fails on the code: the `elif tie_breaking ==
'random'` branch is taken even when there is no tie, and
`random.choice(modes[0])` then stores a single character of the unique
mode instead of the mode itself.  On `["ab", "ab"]` the unique mode is
`"ab"` but the stored fill is `"a"`. -/
theorem c2_unique_mode_random_bug :
    UniqueMode "ab" (strVals ([Val.str "ab", Val.str "ab"].filter
      (fun x => !(isMissingElem (Val.str "NaN") x)))) ∧
    CategoricalImputer.fit { tie_breaking := .random }
        [Val.str "ab", Val.str "ab"] 0 =
      .ok { tie_breaking := .random, fill_ := some "a" } ∧
    ("a" : String) ≠ "ab" ∧
    CategoricalImputer.fit { tie_breaking := .error }
        [Val.str "ab", Val.str "ab"] 0 =
      .ok { tie_breaking := .error, fill_ := some "ab" } ∧
    CategoricalImputer.fit { tie_breaking := .first }
        [Val.str "ab", Val.str "ab"] 0 =
      .ok { tie_breaking := .first, fill_ := some "ab" } :=
  ⟨by decide, by decide, by decide, by decide, by decide⟩

/-- C3 counterexample: an entry that is the string literal `"NaN"` is
NOT masked by `_get_mask` when the sentinel is `"NaN"` (the mask is
`pd.isnull`, which is false on every real string), so
`transform(["a","NaN","b"])` returns `["a","NaN","b"]`, not the
`["a","b","b"]` the claim asserts — even though fitting on
`["a","b","b","NaN"]` does learn `fill_ = "b"`. -/
theorem c3_string_nan_counterexample :
    _get_mask [Val.str "NaN"] (Val.str "NaN") = [false] ∧
    CategoricalImputer.fit {}
        [Val.str "a", Val.str "b", Val.str "b", Val.str "NaN"] 0 =
      .ok { fill_ := some "b" } ∧
    CategoricalImputer.transform { fill_ := some "b" }
        [Val.str "a", Val.str "NaN", Val.str "b"] =
      .ok [Val.str "a", Val.str "NaN", Val.str "b"] ∧
    ([Val.str "a", Val.str "NaN", Val.str "b"] : List Val) ≠
      [Val.str "a", Val.str "b", Val.str "b"] :=
  ⟨by decide, by decide, by decide, by decide⟩

/-- C3 (amended): when the sentinel is the canonical missing marker
(the token `"NaN"`, an absent value, or a floating-point NaN), the mask
is exactly the null test — it marks every null/NaN/absent entry and no
string entry, the string literal `"NaN"` included; fitting on
`["a","b","b",<missing>]` learns `fill_ = "b"` and
`transform(["a",<missing>,"b"])` returns `["a","b","b"]`. -/
theorem c3_canonical_mask (value : Val) (X : List Val)
    (h : value = Val.str "NaN" ∨ value = Val.null) :
    _get_mask X value = X.map (fun x => x == Val.null) ∧
    isMissingElem value (Val.str "NaN") = false ∧
    CategoricalImputer.fit {}
        [Val.str "a", Val.str "b", Val.str "b", Val.null] 0 =
      .ok { fill_ := some "b" } ∧
    CategoricalImputer.transform { fill_ := some "b" }
        [Val.str "a", Val.null, Val.str "b"] =
      .ok [Val.str "a", Val.str "b", Val.str "b"] := by
  have h1 : _get_mask X value = X.map (fun x => x == Val.null) := by
    rcases h with rfl | rfl <;> simp [_get_mask, isMissingElem]
  have h2 : isMissingElem value (Val.str "NaN") = false := by
    rcases h with rfl | rfl <;> decide
  exact ⟨h1, h2, by decide, by decide⟩

/-- Witness for the amended C3 with the float-NaN/None sentinel. -/
theorem c3_canonical_mask_witness :
    _get_mask [Val.null, Val.str "x"] Val.null =
      ([Val.null, Val.str "x"].map (fun x => x == Val.null)) ∧
    isMissingElem Val.null (Val.str "NaN") = false ∧
    CategoricalImputer.fit {}
        [Val.str "a", Val.str "b", Val.str "b", Val.null] 0 =
      .ok { fill_ := some "b" } ∧
    CategoricalImputer.transform { fill_ := some "b" }
        [Val.str "a", Val.null, Val.str "b"] =
      .ok [Val.str "a", Val.str "b", Val.str "b"] :=
  c3_canonical_mask Val.null [Val.null, Val.str "x"] (Or.inr rfl)

/-- C4: the claim that `strategy = "constant"` always stores the
configured `fill_value` fails on the code for
`tie_breaking = "random"`: the `elif tie_breaking == 'random'` branch
fires (the constant mode list has length 1, so neither error branch
does) and `random.choice(fill_value)` stores one random character of
`fill_value` — and even raises `IndexError` when `fill_value` is the
empty string.  The no-empty-training-signal part does hold, as does the
claim under the other two tie policies. -/
theorem c4_constant_random_bug :
    CategoricalImputer.fit
        { strategy := .constant, fill_value := "ab", tie_breaking := .random } [] 0 =
      .ok { strategy := .constant, fill_value := "ab", tie_breaking := .random,
            fill_ := some "a" } ∧
    ("a" : String) ≠ "ab" ∧
    CategoricalImputer.fit { strategy := .constant, fill_value := "ab" } [] 0 =
      .ok { strategy := .constant, fill_value := "ab", fill_ := some "ab" } ∧
    CategoricalImputer.fit
        { strategy := .constant, fill_value := "ab", tie_breaking := .first }
        [Val.null] 0 =
      .ok { strategy := .constant, fill_value := "ab", tie_breaking := .first,
            fill_ := some "ab" } ∧
    CategoricalImputer.fit
        { strategy := .constant, fill_value := "ab", tie_breaking := .random } [] 0 ≠
      .error .emptyData ∧
    CategoricalImputer.fit
        { strategy := .constant, fill_value := "", tie_breaking := .random } [] 0 =
      .error .indexError :=
  ⟨by decide, by decide, by decide, by decide, by decide, by decide⟩

end Claims
